import Mathlib

/- Verification of the STAC catalog builder and validator scripts
   (scripts/python/make_catalog.py and scripts/python/validate_catalog.py),
   as a shallow embedding in Lean.  Pure library helpers that the scripts
   call (pystac.utils.safe_urlparse, JoinType, join_path_or_url, posixpath
   join, argparse) are embedded following their documented behaviour; the
   scripts themselves are embedded line by line. -/

namespace Stac

/-- Characters allowed in a URL scheme (letters, digits, and the characters
plus, minus, dot), following the urllib.parse scheme grammar that
pystac.utils.safe_urlparse builds on. -/
def isSchemeChar (c : Char) : Bool :=
  c.isAlphanum || c == '+' || c == '-' || c == '.'

/-- Characters of the candidate scheme: the characters strictly before the
first colon of the string, or none when the string has no colon. -/
def schemeCandidate : List Char → Option (List Char)
  | [] => none
  | c :: cs =>
    if c == ':' then some []
    else
      match schemeCandidate cs with
      | none => none
      | some s => some (c :: s)

/-- Scheme extraction as performed by urllib.parse.urlsplit: the text before
the first colon is the scheme exactly when it is nonempty, starts with an
ASCII letter, and all of its characters are scheme characters; the scheme is
returned lower-cased. -/
def urlparseScheme (href : String) : String :=
  match schemeCandidate href.data with
  | none => ""
  | some [] => ""
  | some (c :: cs) =>
    if c.isAlpha && (c :: cs).all isSchemeChar then
      String.mk ((c :: cs).map Char.toLower)
    else ""

/-- Boolean prefix test on character lists, modelling str.startswith. -/
def isPrefixOfChars : List Char → List Char → Bool
  | [], _ => true
  | _ :: _, [] => false
  | c :: cs, d :: ds => c == d && isPrefixOfChars cs ds

/-- Characters of a string lower-cased, modelling str.lower on the ASCII
range that schemes are drawn from. -/
def lowerChars (s : String) : List Char :=
  s.data.map Char.toLower

/-- Scheme of the parse result of pystac.utils.safe_urlparse: the urlsplit
scheme, except that a Windows drive path such as a scheme directly followed
by a colon and a backslash is treated as having no scheme. -/
def safeScheme (href : String) : String :=
  let s := urlparseScheme href
  if (s != "") && isPrefixOfChars (s ++ ":\\").data (lowerChars href) then ""
  else s

/-- The two join semantics distinguished by pystac.utils.JoinType. -/
inductive JoinType where
  | path
  | url
deriving DecidableEq, Repr

/-- pystac.utils.JoinType.from_parsed_uri: path join when the parsed scheme
is empty, URL join otherwise. -/
def JoinType.fromParsedUri (scheme : String) : JoinType :=
  if scheme = "" then .path else .url

/-- One step of posixpath.join: a segment that starts with a slash replaces
the accumulated path; otherwise the segment is appended, with a slash
separator unless the accumulated path is empty or already ends in a slash. -/
def posixJoinStep (path b : String) : String :=
  if b.data.head? == some '/' then b
  else if path == "" || path.data.getLast? == some '/' then path ++ b
  else path ++ "/" ++ b

/-- posixpath.join of a first argument and a list of further segments. -/
def posixJoin (a : String) (rest : List String) : String :=
  rest.foldl posixJoinStep a

/-- Forward-slash join of a list of segments, modelling the join method of
the Python string "/". -/
def slashJoin : List String → String
  | [] => ""
  | [a] => a
  | a :: b :: rest => a ++ "/" ++ slashJoin (b :: rest)

/-- pystac.utils.join_path_or_url: posixpath.join under path semantics, a
plain forward-slash join under URL semantics. -/
def join_path_or_url (jt : JoinType) (args : List String) : String :=
  match jt, args with
  | _, [] => ""
  | .path, a :: rest => posixJoin a rest
  | .url, a :: rest => slashJoin (a :: rest)

/-- Shallow model of a pystac Item as used by the layout code: the layout
reads only the id; remaining metadata is carried uninterpreted. -/
structure Item where
  id : String
  properties : List (String × String)
deriving DecidableEq, Repr

/-- ItemInSubdirLayout.get_item_href from make_catalog.py: place the item
document in an items subdirectory of the parent directory, joining with
path or URL semantics according to the parent href. -/
def get_item_href (item : Item) (parent_dir : String) : String :=
  let joinType := JoinType.fromParsedUri (safeScheme parent_dir)
  let items_dir := "items"
  let item_filename := item.id ++ ".json"
  join_path_or_url joinType [parent_dir, items_dir, item_filename]

/-- Shallow model of a pystac Collection as used by the builder loop: the
identifier it was read with. -/
structure Collection where
  id : String
deriving DecidableEq, Repr

/-- Outcome of pystac.Collection.from_file at one path: the loaded
collection, a FileNotFoundError, or any other load or parse error carrying
its message. -/
inductive LoadResult where
  | success (c : Collection)
  | fileNotFound
  | loadError (msg : String)
deriving DecidableEq, Repr

/-- Path of the collection document for one configured directory name, as
built by joining output_dir, the collection id, and collection.json. -/
def collectionPath (outputDir name : String) : String :=
  outputDir ++ "/" ++ name ++ "/collection.json"

/-- Iteration order of the attach loop, modelling the Python sorted builtin
applied to the configured directory names. -/
def sortedNames (names : List String) : List String :=
  List.insertionSort (· ≤ ·) names

/-- Warning printed by make_catalog.py when a collection document is
missing (the FileNotFoundError handler). -/
def warnNotFound (path : String) : String :=
  "  - Warning: Could not find " ++ path ++ ". Skipping."

/-- Warning printed by make_catalog.py when loading or attaching a
collection raises any other error (the generic exception handler). -/
def warnProcess (path msg : String) : String :=
  "  - Warning: Could not process " ++ path ++ ". Error: " ++ msg ++ ". Skipping."

/-- Progress line printed by make_catalog.py when a collection is read and
attached. -/
def readMsg (name : String) : String :=
  "  + Read collection " ++ name

/-- State threaded through the attach loop of create_and_save_catalog: the
children attached so far, the lines printed so far, and the collection
document paths attempted so far. -/
structure AttachState where
  children : List Collection
  output : List String
  attempts : List String
deriving DecidableEq, Repr

/-- One iteration of the attach loop: attempt to load the collection
document and attach it as a child, absorbing FileNotFoundError and any
other error into a printed warning. The attach argument models whether
catalog.add_child raises for a given collection. -/
def attachStep (fs : String → LoadResult) (attach : Collection → Except String Unit)
    (outputDir : String) (st : AttachState) (name : String) : AttachState :=
  let path := collectionPath outputDir name
  match fs path with
  | .success c =>
    match attach c with
    | .ok _ =>
      ⟨st.children ++ [c], st.output ++ [readMsg name], st.attempts ++ [path]⟩
    | .error e =>
      ⟨st.children, st.output ++ [warnProcess path e], st.attempts ++ [path]⟩
  | .fileNotFound =>
    ⟨st.children, st.output ++ [warnNotFound path], st.attempts ++ [path]⟩
  | .loadError e =>
    ⟨st.children, st.output ++ [warnProcess path e], st.attempts ++ [path]⟩

/-- The attach loop of create_and_save_catalog: a fold of attachStep over
the configured names in sorted order, starting from the empty state. -/
def attachLoop (fs : String → LoadResult) (attach : Collection → Except String Unit)
    (outputDir : String) (names : List String) : AttachState :=
  (sortedNames names).foldl (attachStep fs attach outputDir) ⟨[], [], []⟩

/-- Child contributed to the catalog by one directory name: the collection
when it loads and attaches successfully, nothing otherwise. -/
def childFor (fs : String → LoadResult) (attach : Collection → Except String Unit)
    (outputDir name : String) : Option Collection :=
  match fs (collectionPath outputDir name) with
  | .success c =>
    match attach c with
    | .ok _ => some c
    | .error _ => none
  | .fileNotFound => none
  | .loadError _ => none

/-- Line printed by the attach loop for one directory name. -/
def lineFor (fs : String → LoadResult) (attach : Collection → Except String Unit)
    (outputDir name : String) : String :=
  match fs (collectionPath outputDir name) with
  | .success c =>
    match attach c with
    | .ok _ => readMsg name
    | .error e => warnProcess (collectionPath outputDir name) e
  | .fileNotFound => warnNotFound (collectionPath outputDir name)
  | .loadError e => warnProcess (collectionPath outputDir name) e

/-- The configured public URL of the catalog root, CATALOG_PUBLISHED_URL in
make_catalog.py. -/
def CATALOG_PUBLISHED_URL : String :=
  "https://coclico.blob.core.windows.net/stac/v1/catalog.json"

/-- The configured collection directory names, COLLECTION_DIRS in
make_catalog.py. -/
def COLLECTION_DIRS : List String :=
  ["gcts", "gctr", "global-coastal-typology", "shoreline-projections",
   "s2-l2a-composite", "coastal-grid", "shoreline-projections-edito",
   "coastal-zone", "shorelinemonitor-series", "shorelinemonitor-shorelines",
   "overture-buildings", "deltares-delta-dtm"]

/-- Result of one run of create_and_save_catalog: the lines printed to
standard output and to standard error, whether the self-contained save and
the re-anchor steps executed, and the process exit code. -/
structure BuilderResult where
  stdoutLines : List String
  stderrLines : List String
  savedSelfContained : Bool
  reanchored : Bool
  exitCode : Nat
deriving DecidableEq, Repr

/-- The try body of the validation step as found in make_catalog.py: the
call to catalog.validate_all is commented out, so the body performs nothing
and never raises. -/
def disabledValidateAll : Except String Unit := .ok ()

/-- create_and_save_catalog, parametric in the outcome of the validation
try body: run the attach loop, then the validation step, and on validation
success perform the self-contained save and the re-anchor of the root; on
validation failure print the error to the error stream and return early
without saving. Returning from the Python function leaves the process exit
code 0 in both branches. -/
def createAndSaveCatalogWith (fs : String → LoadResult)
    (attach : Collection → Except String Unit) (outputDir : String)
    (names : List String) (validationBody : Except String Unit) : BuilderResult :=
  let st := attachLoop fs attach outputDir names
  let pre := ["Creating STAC Catalog calkoen-phd-stac...",
    "Reading " ++ toString names.length ++ " child collections from disk..."]
  let valMsg := "Validating catalog and all children/items (this may take a moment)..."
  match validationBody with
  | .error e =>
    ⟨pre ++ st.output ++ [valMsg], ["Validation failed: " ++ e], false, false, 0⟩
  | .ok _ =>
    ⟨pre ++ st.output ++ [valMsg, "Validation successful!",
        "Saving catalog as SELF_CONTAINED to create relative links...",
        "Anchoring catalog by adding absolute self link: " ++ CATALOG_PUBLISHED_URL,
        "Successfully saved RELATIVE PUBLISHED catalog to: " ++ outputDir ++ "/catalog.json"],
      [], true, true, 0⟩

/-- create_and_save_catalog as written: its validation try body is the
disabled call, which never raises. -/
def create_and_save_catalog (fs : String → LoadResult)
    (attach : Collection → Except String Unit) (outputDir : String)
    (names : List String) : BuilderResult :=
  createAndSaveCatalogWith fs attach outputDir names disabledValidateAll

/-- A link recorded in a STAC document: its relation and its href. -/
structure Link where
  rel : String
  href : String
deriving DecidableEq, Repr

/-- Shallow model of a STAC JSON document as far as the re-anchor step
inspects it: its self href and its other recorded links. -/
structure StacDoc where
  selfHref : Option String
  links : List Link
deriving DecidableEq, Repr

/-- A href is relative when it carries no URL scheme. -/
def isRelativeHref (href : String) : Bool :=
  safeScheme href == ""

/-- The re-anchor phase ending create_and_save_catalog: re-open the root
document from its path, overwrite its self href with the published URL, and
write only that document back to its original path; the phase fails (the
exception propagates) when the root document cannot be read. -/
def reanchorPhase (fs : String → Option StacDoc) (catalogPath url : String) :
    Option (String → Option StacDoc) :=
  match fs catalogPath with
  | none => none
  | some doc =>
    some fun q =>
      if q = catalogPath then some { doc with selfHref := some url } else fs q

/-- Concrete two-document filesystem used to exercise the re-anchor
phase: a root catalog document and one child collection document, each
holding only relative links. -/
def reanchorDemoFs : String → Option StacDoc := fun q =>
  if q = "release/v1/catalog.json" then
    some ⟨none, [⟨"child", "gcts/collection.json"⟩]⟩
  else if q = "release/v1/gcts/collection.json" then
    some ⟨none, [⟨"parent", "../catalog.json"⟩]⟩
  else none

/-- Shallow model of a loaded pystac Catalog as far as validate_catalog.py
reads it: its id. -/
structure Catalog where
  id : String
deriving DecidableEq, Repr

/-- Result of running a command line tool: its exit code, standard output
lines, and standard error lines. -/
structure CliResult where
  exitCode : Nat
  stdoutLines : List String
  stderrLines : List String
deriving DecidableEq, Repr

/-- Space-separated join of a list of strings, modelling the join method of
the Python string holding one space. -/
def spaceJoin : List String → String
  | [] => ""
  | [a] => a
  | a :: b :: rest => a ++ " " ++ spaceJoin (b :: rest)

/-- Usage line printed by argparse for the validate_catalog.py parser. -/
def usageLine : String :=
  "usage: validate_catalog.py [-h] catalog_path"

/-- Result of argparse when the required positional argument is missing:
usage and an error on the error stream, exit status 2. -/
def missingArgResult : CliResult :=
  ⟨2, [], [usageLine,
    "validate_catalog.py: error: the following arguments are required: catalog_path"]⟩

/-- Result of argparse when extra arguments are not recognized: usage and
an error on the error stream, exit status 2. -/
def unrecognizedResult (extra : List String) : CliResult :=
  ⟨2, [], [usageLine,
    "validate_catalog.py: error: unrecognized arguments: " ++ spaceJoin extra]⟩

/-- Boolean test for an option-like argument, one beginning with a dash, as
argparse classifies argv entries. -/
def isOptionArg (a : String) : Bool :=
  a.data.head? == some '-'

/-- Model of argparse parse_args for the validate_catalog.py parser, which
declares one required positional argument and the automatic help option: a
help request exits 0 after printing usage; unknown options and extra
positional arguments exit 2 with a usage message; a missing positional
exits 2 with a usage message; otherwise the single positional is returned.
In every error case argparse raises SystemExit before main reads the
catalog. -/
def parseArgs (argv : List String) : Except CliResult String :=
  if argv.any fun a => a == "-h" || a == "--help" then
    .error ⟨0, [usageLine], []⟩
  else if argv.filter (fun a => isOptionArg a) = [] then
    match argv with
    | [] => .error missingArgResult
    | [p] => .ok p
    | _ :: rest => .error (unrecognizedResult rest)
  else
    .error (unrecognizedResult (argv.filter fun a => isOptionArg a))

/-- Lines printed to the error stream by validate_catalog.py on its failure
path. -/
def validatorFailLines (e : String) : List String :=
  ["Validation failed.", "Error: " ++ e]

/-- main of validate_catalog.py: parse the command line, load the root
catalog, recursively validate the whole tree, and exit 0 with a success
message, or exit 1 with the error printed to the error stream. The load and
validate arguments model pystac.Catalog.from_file and
pystac.validation.validate_all, each possibly raising. -/
def validatorMain (argv : List String) (load : String → Except String Catalog)
    (validate : Catalog → Except String Unit) : CliResult :=
  match parseArgs argv with
  | .error r => r
  | .ok path =>
    match load path with
    | .error e =>
      ⟨1, ["Attempting to read catalog from: " ++ path], validatorFailLines e⟩
    | .ok cat =>
      match validate cat with
      | .error e =>
        ⟨1, ["Attempting to read catalog from: " ++ path,
             "Successfully read catalog " ++ cat.id ++ ".",
             "Starting recursive validation of all collections and items..."],
          validatorFailLines e⟩
      | .ok _ =>
        ⟨0, ["Attempting to read catalog from: " ++ path,
             "Successfully read catalog " ++ cat.id ++ ".",
             "Starting recursive validation of all collections and items...",
             "Validation successful!",
             "The STAC catalog and all its children are valid."], []⟩

/-- A string with a nonempty right append component is nonempty. -/
theorem append_ne_empty_of_right (s t : String) (h : t.data ≠ []) : s ++ t ≠ "" := by
  intro hcon
  have h2 : (s ++ t).data = [] := by rw [hcon]
  simp at h2
  exact h h2.2

/-- Normal form of a posixpath.join step when the segment is relative and
the accumulated path is nonempty and does not end in a slash. -/
theorem posixJoinStep_norm (path b : String)
    (hb : b.data.head? ≠ some '/')
    (hp : path ≠ "")
    (hl : path.data.getLast? ≠ some '/') :
    posixJoinStep path b = path ++ "/" ++ b := by
  unfold posixJoinStep
  simp [hb, hp, hl]

/-- Closed form of the URL join of a parent, the items segment, and a
filename. -/
theorem slashJoin_three (p i : String) :
    slashJoin [p, "items", i ++ ".json"] = p ++ "/items/" ++ i ++ ".json" := by
  show p ++ "/" ++ ("items" ++ "/" ++ (i ++ ".json")) = p ++ "/items/" ++ i ++ ".json"
  have h : ("/items/" : String) = "/" ++ "items" ++ "/" := by rfl
  rw [h]
  apply String.ext
  simp

/-- Closed form of the path join of a parent, the items segment, and a
filename, under the normal side conditions. -/
theorem posixJoin_three (p i : String)
    (hp : p ≠ "") (hl : p.data.getLast? ≠ some '/') (hi : i.data.head? ≠ some '/') :
    posixJoin p ["items", i ++ ".json"] = p ++ "/items/" ++ i ++ ".json" := by
  have s1 : posixJoinStep p "items" = p ++ "/" ++ "items" :=
    posixJoinStep_norm p "items" (by decide) hp hl
  have hb2 : (i ++ ".json").data.head? ≠ some '/' := by
    have hd : (i ++ ".json").data = i.data ++ ".json".data := String.data_append i ".json"
    rw [hd]
    cases h : i.data with
    | nil => simp
    | cons c cs =>
      rw [h] at hi
      simpa using hi
  have hp2 : p ++ "/" ++ "items" ≠ "" :=
    append_ne_empty_of_right (p ++ "/") "items" (by simp)
  have hl2 : (p ++ "/" ++ "items").data.getLast? ≠ some '/' := by
    have hd : (p ++ "/" ++ "items").data = (p ++ "/").data ++ "items".data :=
      String.data_append (p ++ "/") "items"
    rw [hd, List.getLast?_append_of_ne_nil _ (by simp : "items".data ≠ [])]
    simp
  show posixJoinStep (posixJoinStep p "items") (i ++ ".json") = _
  rw [s1, posixJoinStep_norm _ _ hb2 hp2 hl2]
  have h : ("/items/" : String) = "/" ++ "items" ++ "/" := by rfl
  rw [h]
  apply String.ext
  simp

/-- C2: for every item and every parent directory href, the custom layout
policy returns the href obtained by joining the parent, the segment items,
and the filename id.json; under the normal side conditions (nonempty parent
not ending in a slash, identifier not beginning with a slash) this equals
parent/items/id.json and in particular differs from the href that would
place the item file directly beside the collection document. -/
theorem get_item_href_places_in_items_subdir (item : Item) (p : String)
    (hp : p ≠ "") (hl : p.data.getLast? ≠ some '/')
    (hid : item.id.data.head? ≠ some '/') :
    get_item_href item p = p ++ "/items/" ++ item.id ++ ".json" ∧
    get_item_href item p ≠ p ++ "/" ++ (item.id ++ ".json") := by
  have key : get_item_href item p = p ++ "/items/" ++ item.id ++ ".json" := by
    show join_path_or_url (JoinType.fromParsedUri (safeScheme p))
      [p, "items", item.id ++ ".json"] = _
    cases hj : JoinType.fromParsedUri (safeScheme p) with
    | path => exact posixJoin_three p item.id hp hl hid
    | url => exact slashJoin_three p item.id
  refine ⟨key, ?_⟩
  rw [key]
  intro hcon
  have hlen := congrArg String.length hcon
  have e1 : ("/items/" : String).length = 7 := rfl
  have e2 : ("/" : String).length = 1 := rfl
  simp [e1, e2] at hlen
  omega

/-- Witness for C2: for parent directory foo and item id bar the computed
href is foo/items/bar.json. -/
theorem get_item_href_subdir_w :
    get_item_href ⟨"bar", []⟩ "foo" = "foo/items/bar.json" :=
  (get_item_href_places_in_items_subdir ⟨"bar", []⟩ "foo" (by decide) (by decide)
    (by decide)).1.trans (by decide)

/-- C3: the layout policy selects URL-join semantics (plain forward-slash
join) exactly when the parent href carries a URL scheme, and posixpath join
semantics otherwise; joining parent https://example.org/cat with item id x
yields https://example.org/cat/items/x.json. -/
theorem get_item_href_url_vs_path (item : Item) (p : String) :
    (safeScheme p ≠ "" →
      get_item_href item p = slashJoin [p, "items", item.id ++ ".json"]) ∧
    (safeScheme p = "" →
      get_item_href item p = posixJoin p ["items", item.id ++ ".json"]) ∧
    get_item_href ⟨"x", []⟩ "https://example.org/cat" =
      "https://example.org/cat/items/x.json" := by
  refine ⟨?_, ?_, by decide⟩
  · intro h
    show join_path_or_url (JoinType.fromParsedUri (safeScheme p))
      [p, "items", item.id ++ ".json"] = _
    unfold JoinType.fromParsedUri
    simp [h, join_path_or_url]
  · intro h
    show join_path_or_url (JoinType.fromParsedUri (safeScheme p))
      [p, "items", item.id ++ ".json"] = _
    unfold JoinType.fromParsedUri
    simp [h, join_path_or_url]

/-- Witness for C3: the parent href https://example.org/cat has a URL
scheme, so the computation takes the forward-slash join branch. -/
theorem get_item_href_url_vs_path_w :
    get_item_href ⟨"x", []⟩ "https://example.org/cat" =
      slashJoin ["https://example.org/cat", "items", "x" ++ ".json"] :=
  (get_item_href_url_vs_path ⟨"x", []⟩ "https://example.org/cat").1 (by decide)

/-- C8: the item-href computation is a deterministic pure function of the
item identifier and the parent href: two invocations with equal identifiers
and equal parent hrefs return equal hrefs, regardless of any other item
metadata, and the embedding as a total function returning only the href
reflects that the code mutates no state. -/
theorem get_item_href_pure (item₁ item₂ : Item) (p₁ p₂ : String)
    (hid : item₁.id = item₂.id) (hp : p₁ = p₂) :
    get_item_href item₁ p₁ = get_item_href item₂ p₂ := by
  unfold get_item_href
  rw [hid, hp]

/-- Witness for C8: two items with equal ids but different metadata receive
the same href at the same parent. -/
theorem get_item_href_pure_w :
    get_item_href ⟨"a", [("extra", "metadata")]⟩ "dir" =
      get_item_href ⟨"a", []⟩ "dir" :=
  get_item_href_pure ⟨"a", [("extra", "metadata")]⟩ ⟨"a", []⟩ "dir" "dir" rfl rfl

/-- Closed form of the fold of attachStep: children, printed lines, and
attempted paths accumulate pointwise over the processed names. -/
theorem attachStep_foldl (fs : String → LoadResult) (attach : Collection → Except String Unit)
    (outputDir : String) (l : List String) (st : AttachState) :
    l.foldl (attachStep fs attach outputDir) st =
      ⟨st.children ++ l.filterMap (childFor fs attach outputDir),
       st.output ++ l.map (lineFor fs attach outputDir),
       st.attempts ++ l.map (collectionPath outputDir)⟩ := by
  induction l generalizing st with
  | nil => simp
  | cons n rest ih =>
    rw [List.foldl_cons, ih]
    unfold attachStep childFor lineFor
    cases hfs : fs (collectionPath outputDir n) with
    | success c =>
      cases hat : attach c with
      | ok u => simp [hfs, hat]
      | error e => simp [hfs, hat]
    | fileNotFound => simp [hfs]
    | loadError e => simp [hfs]

/-- Characterization of the attach loop: the children are the
successfully loaded and attached collections of the sorted names, the
output holds one line per sorted name, and every sorted name is
attempted. -/
theorem attachLoop_spec (fs : String → LoadResult) (attach : Collection → Except String Unit)
    (outputDir : String) (names : List String) :
    attachLoop fs attach outputDir names =
      ⟨(sortedNames names).filterMap (childFor fs attach outputDir),
       (sortedNames names).map (lineFor fs attach outputDir),
       (sortedNames names).map (collectionPath outputDir)⟩ := by
  unfold attachLoop
  rw [attachStep_foldl]
  simp

/-- The iteration order of the attach loop is sorted. -/
theorem sortedNames_sorted (names : List String) :
    List.Sorted (· ≤ ·) (sortedNames names) :=
  List.sorted_insertionSort _ names

/-- The iteration order of the attach loop is a permutation of the
configured names. -/
theorem sortedNames_perm (names : List String) :
    (sortedNames names).Perm names :=
  List.perm_insertionSort _ names


/-- C4: the attach loop processes the configured collection directory
names in lexicographic order (the attempted paths follow the sorted
permutation of the names), attempting output_dir/name/collection.json for
every name; a missing file produces a warning naming the missing path and
contributes no child, any other load error produces a warning carrying the
error message and contributes no child, and in every case the loop reaches
every name and the builder completes, the children being exactly the
successfully loaded and attached collections. -/
theorem attach_loop_error_handling (fs : String → LoadResult)
    (attach : Collection → Except String Unit) (outputDir : String)
    (names : List String) (n : String) (hn : n ∈ names) :
    (attachLoop fs attach outputDir names).attempts =
        (sortedNames names).map (collectionPath outputDir) ∧
    List.Sorted (· ≤ ·) (sortedNames names) ∧
    (sortedNames names).Perm names ∧
    collectionPath outputDir n ∈ (attachLoop fs attach outputDir names).attempts ∧
    (attachLoop fs attach outputDir names).children =
        (sortedNames names).filterMap (childFor fs attach outputDir) ∧
    (fs (collectionPath outputDir n) = .fileNotFound →
      warnNotFound (collectionPath outputDir n) ∈
          (attachLoop fs attach outputDir names).output ∧
      childFor fs attach outputDir n = none) ∧
    (∀ e, fs (collectionPath outputDir n) = .loadError e →
      warnProcess (collectionPath outputDir n) e ∈
          (attachLoop fs attach outputDir names).output ∧
      childFor fs attach outputDir n = none) := by
  have hmem : n ∈ sortedNames names := ((sortedNames_perm names).mem_iff).mpr hn
  rw [attachLoop_spec]
  refine ⟨rfl, sortedNames_sorted names, sortedNames_perm names, ?_, rfl, ?_, ?_⟩
  · exact List.mem_map_of_mem _ hmem
  · intro hfs
    constructor
    · have : lineFor fs attach outputDir n = warnNotFound (collectionPath outputDir n) := by
        unfold lineFor
        rw [hfs]
      rw [← this]
      exact List.mem_map_of_mem _ hmem
    · unfold childFor
      rw [hfs]
  · intro e hfs
    constructor
    · have : lineFor fs attach outputDir n = warnProcess (collectionPath outputDir n) e := by
        unfold lineFor
        rw [hfs]
      rw [← this]
      exact List.mem_map_of_mem _ hmem
    · unfold childFor
      rw [hfs]

/-- Witness for C4: with gcts listed in COLLECTION_DIRS but its
collection document missing on disk, the loop prints a warning naming the
missing path. -/
theorem attach_loop_error_handling_w :
    warnNotFound (collectionPath "release/v1" "gcts") ∈
      (attachLoop (fun _ => .fileNotFound) (fun _ => .ok ()) "release/v1"
        COLLECTION_DIRS).output :=
  ((attach_loop_error_handling (fun _ => .fileNotFound) (fun _ => .ok ()) "release/v1"
    COLLECTION_DIRS "gcts" (by decide)).2.2.2.2.2.1 rfl).1

/-- C10: the per-collection error absorption covers the attachment step
as well as loading: when a collection document loads but attaching it
raises, the loop prints the generic warning carrying the error message,
that collection appears in no child slot, and every configured name is
still attempted. -/
theorem attach_failure_absorbed (fs : String → LoadResult)
    (attach : Collection → Except String Unit) (outputDir : String)
    (names : List String) (n : String) (c : Collection) (e : String)
    (hn : n ∈ names)
    (hload : fs (collectionPath outputDir n) = .success c)
    (hatt : attach c = .error e)
    (huniq : ∀ m, m ∈ names → fs (collectionPath outputDir m) = .success c → m = n) :
    warnProcess (collectionPath outputDir n) e ∈
        (attachLoop fs attach outputDir names).output ∧
    c ∉ (attachLoop fs attach outputDir names).children ∧
    (attachLoop fs attach outputDir names).attempts =
        (sortedNames names).map (collectionPath outputDir) := by
  have hmem : n ∈ sortedNames names := ((sortedNames_perm names).mem_iff).mpr hn
  rw [attachLoop_spec]
  refine ⟨?_, ?_, rfl⟩
  · have : lineFor fs attach outputDir n = warnProcess (collectionPath outputDir n) e := by
      unfold lineFor
      rw [hload]
      simp [hatt]
    rw [← this]
    exact List.mem_map_of_mem _ hmem
  · intro hc
    rcases List.mem_filterMap.mp hc with ⟨m, hm, hcf⟩
    have hmn : fs (collectionPath outputDir m) = .success c ∧ attach c = .ok () := by
      revert hcf
      unfold childFor
      cases hfs : fs (collectionPath outputDir m) with
      | success c2 =>
        cases hat : attach c2 with
        | ok u =>
          cases u
          intro hcf
          simp [hat] at hcf
          subst hcf
          simp [hat]
        | error e2 =>
          intro hcf
          simp [hat] at hcf
      | fileNotFound =>
        intro hcf
        simp at hcf
      | loadError e2 =>
        intro hcf
        simp at hcf
    have := huniq m (((sortedNames_perm names).mem_iff).mp hm) hmn.1
    subst this
    rw [hatt] at hmn
    exact absurd hmn.2 (by simp)

/-- Witness for C10: a collection that loads but whose attachment raises
is skipped with the generic warning. -/
theorem attach_failure_absorbed_w :
    warnProcess (collectionPath "out" "a") "boom" ∈
      (attachLoop (fun p => if p = "out/a/collection.json" then .success ⟨"a"⟩ else .fileNotFound)
        (fun _ => .error "boom") "out" ["a"]).output :=
  (attach_failure_absorbed
    (fun p => if p = "out/a/collection.json" then .success ⟨"a"⟩ else .fileNotFound)
    (fun _ => .error "boom") "out" ["a"] "a" ⟨"a"⟩ "boom"
    (by decide) (by decide) rfl
    (by
      intro m hm hfs
      rcases List.mem_singleton.mp hm with rfl
      rfl)).1

/-- C1: after the re-anchor phase, the root document at the catalog path
has self href exactly CATALOG_PUBLISHED_URL while its other recorded links
are unchanged, only the root document is written back to its original
path, every other document is untouched, and links recorded in non-root
documents that were relative remain relative. -/
theorem reanchor_root_only (fs : String → Option StacDoc) (catalogPath : String)
    (doc : StacDoc) (h : fs catalogPath = some doc) :
    ∃ fsNew, reanchorPhase fs catalogPath CATALOG_PUBLISHED_URL = some fsNew ∧
      fsNew catalogPath = some ⟨some CATALOG_PUBLISHED_URL, doc.links⟩ ∧
      (∀ q, q ≠ catalogPath → fsNew q = fs q) ∧
      ((∀ q d, q ≠ catalogPath → fs q = some d →
          ∀ l, l ∈ d.links → isRelativeHref l.href = true) →
        (∀ q d, q ≠ catalogPath → fsNew q = some d →
          ∀ l, l ∈ d.links → isRelativeHref l.href = true)) := by
  refine ⟨fun q =>
      if q = catalogPath then some { doc with selfHref := some CATALOG_PUBLISHED_URL }
      else fs q, ?_, ?_, ?_, ?_⟩
  · unfold reanchorPhase
    rw [h]
  · simp
  · intro q hq
    simp [hq]
  · intro hrel q d hq hd
    refine hrel q d hq ?_ 
    rw [← hd]
    simp [hq]

/-- Witness for C1: on a concrete two-document tree the re-anchor phase
rewrites only the root self href. -/
theorem reanchor_root_only_w :
    ∃ fsNew,
      reanchorPhase reanchorDemoFs "release/v1/catalog.json" CATALOG_PUBLISHED_URL =
          some fsNew ∧
      fsNew "release/v1/catalog.json" =
          some ⟨some CATALOG_PUBLISHED_URL, [⟨"child", "gcts/collection.json"⟩]⟩ ∧
      (∀ q, q ≠ "release/v1/catalog.json" → fsNew q = reanchorDemoFs q) ∧
      ((∀ q d, q ≠ "release/v1/catalog.json" → reanchorDemoFs q = some d →
          ∀ l, l ∈ d.links → isRelativeHref l.href = true) →
        (∀ q d, q ≠ "release/v1/catalog.json" → fsNew q = some d →
          ∀ l, l ∈ d.links → isRelativeHref l.href = true)) :=
  reanchor_root_only reanchorDemoFs "release/v1/catalog.json"
    ⟨none, [⟨"child", "gcts/collection.json"⟩]⟩ (by decide)

/-- C6: when the validation try body raises, the builder prints the
error to the error stream and returns early without saving: neither the
self-contained save nor the re-anchor runs, and the process exit code is
still 0, so a caller cannot detect the failure from the exit code. -/
theorem builder_validation_failure_branch (fs : String → LoadResult)
    (attach : Collection → Except String Unit) (outputDir : String)
    (names : List String) (e : String) :
    (createAndSaveCatalogWith fs attach outputDir names (.error e)).stderrLines =
        ["Validation failed: " ++ e] ∧
    (createAndSaveCatalogWith fs attach outputDir names (.error e)).savedSelfContained =
        false ∧
    (createAndSaveCatalogWith fs attach outputDir names (.error e)).reanchored = false ∧
    (createAndSaveCatalogWith fs attach outputDir names (.error e)).exitCode = 0 :=
  ⟨rfl, rfl, rfl, rfl⟩

/-- C7: the validation failure branch of the builder is unreachable on
every input: the try body is the disabled validate call, which never
raises, so the builder always prints the validation success message,
prints nothing to the error stream, and always proceeds to the save and
re-anchor steps. -/
theorem builder_validation_branch_unreachable (fs : String → LoadResult)
    (attach : Collection → Except String Unit) (outputDir : String)
    (names : List String) :
    "Validation successful!" ∈
        (create_and_save_catalog fs attach outputDir names).stdoutLines ∧
    (create_and_save_catalog fs attach outputDir names).stderrLines = [] ∧
    (create_and_save_catalog fs attach outputDir names).savedSelfContained = true ∧
    (create_and_save_catalog fs attach outputDir names).reanchored = true := by
  refine ⟨?_, rfl, rfl, rfl⟩
  simp [create_and_save_catalog, createAndSaveCatalogWith, disabledValidateAll]

/-- C5: with a well-formed command line, the validator exits 0 with a
success message and an empty error stream when the root document loads and
the whole descendant tree validates, and exits 1 with the error printed to
the error stream when loading fails or validation fails anywhere in the
tree. -/
theorem validator_exit_codes (argv : List String) (p : String)
    (load : String → Except String Catalog) (validate : Catalog → Except String Unit)
    (hargs : parseArgs argv = .ok p) :
    (∀ cat, load p = .ok cat → validate cat = .ok () →
      (validatorMain argv load validate).exitCode = 0 ∧
      "Validation successful!" ∈ (validatorMain argv load validate).stdoutLines ∧
      (validatorMain argv load validate).stderrLines = []) ∧
    (∀ e, load p = .error e →
      (validatorMain argv load validate).exitCode = 1 ∧
      ("Error: " ++ e) ∈ (validatorMain argv load validate).stderrLines) ∧
    (∀ cat e, load p = .ok cat → validate cat = .error e →
      (validatorMain argv load validate).exitCode = 1 ∧
      ("Error: " ++ e) ∈ (validatorMain argv load validate).stderrLines) := by
  unfold validatorMain
  rw [hargs]
  refine ⟨?_, ?_, ?_⟩
  · intro cat hl hv
    simp [hl, hv]
  · intro e hl
    simp [hl, validatorFailLines]
  · intro cat e hl hv
    simp [hl, hv, validatorFailLines]

/-- Witness for C5: a loadable root whose tree validates produces exit
code 0. -/
theorem validator_exit_codes_w :
    (validatorMain ["catalog.json"]
        (fun _ => .ok ⟨"calkoen-phd-stac"⟩) (fun _ => .ok ())).exitCode = 0 :=
  ((validator_exit_codes ["catalog.json"] "catalog.json"
      (fun _ => .ok ⟨"calkoen-phd-stac"⟩) (fun _ => .ok ()) rfl).1
    ⟨"calkoen-phd-stac"⟩ rfl rfl).1

/-- C9: invoked with no arguments or with extra non-option arguments,
argument parsing terminates the run with exit status 2 and a usage message
on the error stream before any catalog loading: the result is independent
of the load and validate behaviour and does not use the exit-1 path. -/
theorem validator_argparse_exit2 (argv : List String)
    (load : String → Except String Catalog) (validate : Catalog → Except String Unit)
    (h : argv = [] ∨ ∃ a b rest, argv = a :: b :: rest ∧
        (∀ x, x ∈ a :: b :: rest → isOptionArg x = false)) :
    (validatorMain argv load validate).exitCode = 2 ∧
    (validatorMain argv load validate).stdoutLines = [] ∧
    usageLine ∈ (validatorMain argv load validate).stderrLines ∧
    (∀ load2 validate2, validatorMain argv load2 validate2 =
      validatorMain argv load validate) := by
  have key : ∃ r, parseArgs argv = .error r ∧ r.exitCode = 2 ∧ r.stdoutLines = [] ∧
      usageLine ∈ r.stderrLines := by
    rcases h with rfl | ⟨a, b, rest, rfl, hall⟩
    · exact ⟨missingArgResult, rfl, rfl, rfl, by simp [missingArgResult, usageLine]⟩
    · have hany : ((a :: b :: rest).any fun x => x == "-h" || x == "--help") = false := by
        rw [List.any_eq_false]
        intro x hx
        have hx2 := hall x hx
        intro hcon
        rcases Bool.or_eq_true_iff.mp hcon with h1 | h1
        · rw [eq_of_beq h1] at hx2
          simp [isOptionArg] at hx2
        · rw [eq_of_beq h1] at hx2
          simp [isOptionArg] at hx2
      have hfil : (a :: b :: rest).filter (fun x => isOptionArg x) = [] := by
        rw [List.filter_eq_nil_iff]
        intro x hx
        simp [hall x hx]
      refine ⟨unrecognizedResult (b :: rest), ?_, rfl, rfl,
        by simp [unrecognizedResult, usageLine]⟩
      unfold parseArgs
      simp [hany, hfil]
  rcases key with ⟨r, hr, h2, h3, h4⟩
  unfold validatorMain
  rw [hr]
  exact ⟨h2, h3, h4, fun l2 v2 => rfl⟩

/-- Witness for C9: with no arguments the validator exits 2. -/
theorem validator_argparse_exit2_w :
    (validatorMain [] (fun _ => .error "unused") (fun _ => .ok ())).exitCode = 2 :=
  (validator_argparse_exit2 [] (fun _ => .error "unused") (fun _ => .ok ())
    (Or.inl rfl)).1

end Stac
